import Mathlib

/-
Verification of the cancellable background task engine of PDF-Toolkit
(src/df_toolkit_moderno.py).

The Python source is shallowly embedded as executable Lean definitions:

* the tagged tuples put on `self.queue` (("progress", tab, value, cur, tot),
  ("log", tab, text), ("done", None), ("error", msg)) become the `Event` type;
* the per-task worker functions `_task_search_and_extract`,
  `_task_add_page_numbers`, `_task_merge_pdfs`, `_task_extract_pages`,
  `_task_pdf_to_odt` become pure functions from their inputs, a cancellation
  schedule and a failure oracle to the list of emitted events plus the list of
  written output files;
* `threading.Event` (set once, never cleared, polled at each loop head) is
  embedded as `Option Nat`: `some s` means the flag is seen as set from the
  s-th loop check onwards, `none` means it is never set;
* fallible library calls (fitz.open on a path, per-page/per-file document
  operations, extract_text, save) are driven by a boolean failure oracle;
  `doc.close()` and in-memory object construction (fitz.open() with no
  arguments, odfpy element building) are modelled as infallible;
* the filesystem seen by `os.path.exists` is a boolean predicate on strings,
  and the unbounded `while` loop of `unique_filename` takes explicit fuel;
* Python `int()` arithmetic is exact (`Nat`/`Int`); `int((i+1)/total*100)` is
  modelled as exact rational truncation, i.e. Nat floor division
  `100*(i+1)/total` — an idealization of the IEEE-double evaluation CPython
  performs, so exact percent values are never what a theorem here asserts
  (see `pct`).
-/

/-! ## Events

One constructor per tagged tuple the workers put on the queue. -/

inductive Event where
  | progress (channel : String) (percent : Nat) (current : Nat) (total : Nat)
  | log (channel : String) (text : String)
  | done
  | error (msg : String)
  deriving DecidableEq, Repr

namespace Event

/-- Progress and log events: everything that may precede the terminal event. -/
def isEmit : Event → Bool
  | .progress _ _ _ _ => true
  | .log _ _ => true
  | _ => false

/-- Terminal events: ("done", None) and ("error", msg). -/
def isTerminal : Event → Bool
  | .done => true
  | .error _ => true
  | _ => false

/-- Recognise a progress event. -/
def isProgress : Event → Bool
  | .progress _ _ _ _ => true
  | _ => false

/-- The percent field of a progress event. -/
def percent? : Event → Option Nat
  | .progress _ p _ _ => some p
  | _ => none

end Event

/-- A trace is well formed when it is a (possibly empty) run of progress/log
events followed by exactly one terminal event. -/
def wfTrace : List Event → Bool
  | [] => false
  | [e] => e.isTerminal
  | e :: es => e.isEmit && wfTrace es

/-! ## String helpers shared by the tasks

These embed the Python string/path primitives the source uses
(`str.lower`, `in`, `os.path.splitext`, `os.path.basename`, `os.path.join`). -/

/-- Models Python `str.lower()` on the ASCII fragment the claims exercise. -/
def pyLower (s : String) : String := ⟨s.data.map Char.toLower⟩

/-- `needle` is a prefix of `hay` (character lists). -/
def chPrefix : List Char → List Char → Bool
  | [], _ => true
  | _ :: _, [] => false
  | a :: as, b :: bs => a == b && chPrefix as bs

/-- `needle` occurs contiguously in `hay` (character lists). -/
def chInfix (needle : List Char) : List Char → Bool
  | [] => needle.isEmpty
  | c :: rest => chPrefix needle (c :: rest) || chInfix needle rest

/-- Models the Python substring test `needle in hay`. -/
def strContains (hay needle : String) : Bool := chInfix needle.data hay.data

/-- `suffix` is a suffix of `s`; models Python `str.endswith`. -/
def strEndsWith (s suffix : String) : Bool := chPrefix suffix.data.reverse s.data.reverse

/-- Index of the last occurrence of `c` in `cs`, if any. -/
def lastIdx (c : Char) (cs : List Char) : Option Nat :=
  cs.enum.foldl (fun acc p => if p.2 = c then some p.1 else acc) none

/-- Models `os.path.splitext` (posixpath): split at the last dot of the last
path component, unless every character of the component before that dot is
itself a dot (so ".bashrc" has no extension). -/
def splitext (p : String) : String × String :=
  let cs := p.data
  match lastIdx '.' cs with
  | none => (p, "")
  | some d =>
    let s : Nat := match lastIdx '/' cs with | none => 0 | some k => k + 1
    if s ≤ d ∧ ((cs.drop s).take (d - s)).any (fun c => c ≠ '.') then
      (⟨cs.take d⟩, ⟨cs.drop d⟩)
    else (p, "")

/-- Models `os.path.basename` (posixpath): everything after the last slash. -/
def basename (p : String) : String :=
  match lastIdx '/' p.data with
  | none => p
  | some k => ⟨p.data.drop (k + 1)⟩

/-- Models `os.path.join(a, b)` for the shapes the program builds
(result folder joined with a relative file name). -/
def joinPath (a b : String) : String :=
  if a = "" then b
  else if strEndsWith b "/" ∨ a.data.getLast? = some '/' then a ++ b
  else a ++ "/" ++ b

/-! ## unique_filename (source lines 128-135)

The filesystem is a predicate `fs : String → Bool` standing for
`os.path.exists`; the unbounded `while` loop takes fuel and returns `none`
when the fuel is insufficient to reach a free name. -/

/-- The n-th candidate name: base_n.ext with the counter inserted immediately
before the extension. -/
def uniqueCandidate (path : String) (n : Nat) : String :=
  (splitext path).1 ++ "_" ++ toString n ++ (splitext path).2

/-- The while loop of `unique_filename`: `cur` is `new_path`, `counter` the
next suffix to try. -/
def uniqueFrom (fs : String → Bool) (base ext : String) :
    Nat → Nat → String → Option String
  | 0, _, cur => if fs cur then none else some cur
  | fuel + 1, counter, cur =>
    if fs cur then
      uniqueFrom fs base ext fuel (counter + 1) (base ++ "_" ++ toString counter ++ ext)
    else some cur

/-- Models `unique_filename(path)`. -/
def uniqueFilename (fs : String → Bool) (fuel : Nat) (path : String) : Option String :=
  uniqueFrom fs (splitext path).1 (splitext path).2 fuel 1 path

/-! ## Python int() on strings (used by the range parser) -/

/-- Digit run with single underscores allowed between digits, accumulating a
value; the first character has already been checked to be a digit. -/
def pyDigitsAux : Nat → List Char → Option Nat
  | acc, [] => some acc
  | acc, c :: rest =>
    if c.isDigit then pyDigitsAux (10 * acc + (c.toNat - '0'.toNat)) rest
    else if c = '_' then
      match rest with
      | [] => none
      | d :: rest2 =>
        if d.isDigit then pyDigitsAux (10 * acc + (d.toNat - '0'.toNat)) rest2
        else none
    else none

/-- A nonempty digit string starting with a digit, Python underscore rules. -/
def pyDigits (cs : List Char) : Option Nat :=
  match cs with
  | [] => none
  | c :: _ => if c.isDigit then pyDigitsAux 0 cs else none

/-- Python whitespace, for `str.strip()` and the surrounding-space rule of
`int()` (ASCII fragment). -/
def isPySpace (c : Char) : Bool :=
  c = ' ' || c = '\t' || c = '\n' || c = '\r' || c = '\x0b' || c = '\x0c'

def dropLeadingSpaces : List Char → List Char
  | [] => []
  | c :: rest => if isPySpace c then dropLeadingSpaces rest else c :: rest

/-- Models Python `str.strip()`: drop whitespace from both ends. -/
def pyStrip (cs : List Char) : List Char :=
  (dropLeadingSpaces (dropLeadingSpaces cs).reverse).reverse

/-- Models Python `int(s)` for decimal strings: strip surrounding whitespace,
optional sign, digits (underscores between digits allowed); `none` models the
ValueError the source catches and turns into skipping the token. -/
def pyInt? (cs0 : List Char) : Option Int :=
  match pyStrip cs0 with
  | '-' :: cs => (pyDigits cs).map (fun n => -(n : Int))
  | '+' :: cs => (pyDigits cs).map (fun n => (n : Int))
  | cs => (pyDigits cs).map (fun n => (n : Int))

/-- Models `ranges_str.split(',')` (Python split on a one-character
separator: no token dropping, so "" yields [""]). -/
def splitOnComma : List Char → List (List Char)
  | [] => [[]]
  | c :: rest =>
    if c = ',' then [] :: splitOnComma rest
    else
      match splitOnComma rest with
      | t :: ts => (c :: t) :: ts
      | [] => [[c]]

/-! ## Range parser (source lines 1033-1054, inside _task_extract_pages) -/

/-- `part.split('-', 1)`: split at the first dash (only called when the token
contains a dash). -/
def splitFirstDash : List Char → List Char × List Char
  | [] => ([], [])
  | '-' :: rest => ([], rest)
  | c :: rest =>
    let p := splitFirstDash rest
    (c :: p.1, p.2)

/-- The 0-based page indices one comma-token contributes, before bounds
filtering: a dash token adds `[int(start)-1, int(end)-1]` when both halves
parse and start ≤ end; a plain token adds `int(part)-1`; failures skip. -/
def tokenPages (part0 : List Char) : List Int :=
  let part := pyStrip part0
  if part.isEmpty then []
  else if part.contains '-' then
    let halves := splitFirstDash part
    match pyInt? halves.1, pyInt? halves.2 with
    | some a, some b =>
      let s := a - 1
      let e := b - 1
      if s ≤ e then (List.range (e + 1 - s).toNat).map (fun k => s + k) else []
    | _, _ => []
  else
    match pyInt? part with
    | some v => [v - 1]
    | none => []

/-- Insert into a strictly ascending duplicate-free list, keeping it so. -/
def insertAsc (x : Nat) : List Nat → List Nat
  | [] => [x]
  | y :: ys =>
    if x < y then x :: y :: ys
    else if x = y then y :: ys
    else y :: insertAsc x ys

/-- The strictly ascending enumeration of a list's elements: Python's
`sorted(set(lst))`. -/
def sortedDedup (l : List Nat) : List Nat := l.foldr insertAsc []

/-- Models lines 1033-1054: `pages_to_extract`, i.e.
`sorted(set([p for p in raw if 0 <= p < total_pages]))`. -/
def pagesToExtract (rangesStr : String) (totalPages : Nat) : List Nat :=
  let raw : List Int := (splitOnComma rangesStr.data).flatMap tokenPages
  let inBounds : List Nat :=
    (raw.filter (fun p => 0 ≤ p ∧ p < (totalPages : Int))).map Int.toNat
  sortedDedup inBounds

/-! ## The cancellable loop skeleton

Every task runs `for i in range(total):` with, at the head of each
iteration, `if stop_event.is_set(): q.put(log); q.put(done); ...; return`.
`runUnits` is that skeleton: the per-task loop body emits events and updates
the task's accumulating state, or raises (modelling an exception escaping to
the task's outer `except`).  The events of the cancellation branch and of the
code after the loop are appended by each task from the loop's exit tag. -/

/-- `stop_event.is_set()` at the k-th check of the run. -/
def isSet (stopAt : Option Nat) (k : Nat) : Bool :=
  match stopAt with
  | none => false
  | some s => s ≤ k

/-- How the loop ended: cancellation branch taken, exception escaped from the
body, or all units processed. -/
inductive LoopOut (σ : Type) where
  | cancelled (st : σ)
  | failed (st : σ) (msg : String)
  | completed (st : σ)

/-- Run units `i, i+1, ..., i+r-1`; returns the events emitted inside the
loop (in order) and the exit tag carrying the final state. -/
def runUnits (stopAt : Option Nat) (body : Nat → σ → Except String (List Event × σ)) :
    Nat → Nat → σ → List Event × LoopOut σ
  | _, 0, st => ([], .completed st)
  | i, r + 1, st =>
    if isSet stopAt i then ([], .cancelled st)
    else
      match body i st with
      | .error m => ([], .failed st m)
      | .ok (es, st') =>
        let rest := runUnits stopAt body (i + 1) r st'
        (es ++ rest.1, rest.2)

/-- The percent the source computes as `int((done)/total*100)`, idealized
to exact rational truncation (Nat floor division).  CPython evaluates the
expression in IEEE doubles, whose truncation can differ from the exact
floor by one unit at some inputs (e.g. unit 29 of 100 yields 28, not 29),
so no theorem in this file asserts the exact value of a percent field —
only float-insensitive facts such as percent < 100 before the final
unit. -/
def pct (done total : Nat) : Nat := 100 * done / total

/-- The cancellation log line every task emits. -/
def stopMsg : String := "🟥 Proceso detenido por el usuario."

/-! ## Search task (_task_search_and_extract, lines 913-951) -/

structure SearchInput where
  pdfBasename : String
  pageCount : Nat
  pageText : Nat → String
  texts : List String
  caseSensitive : Bool
  requireAll : Bool

/-- Which fallible library calls of the search task raise: opening the source
pdf, the body of unit i (load_page/get_text/insert_pdf), and saving. -/
structure SearchOracle where
  openFails : Bool
  unitFails : Nat → Bool
  saveFails : Bool

def okSearchOracle : SearchOracle := ⟨false, fun _ => false, false⟩

/-- Lines 929-932: does page i match the query texts. -/
def pageMatches (inp : SearchInput) (i : Nat) : Bool :=
  let textsComp := if inp.caseSensitive then inp.texts else inp.texts.map pyLower
  let searchText := if inp.caseSensitive then inp.pageText i else pyLower (inp.pageText i)
  let found := textsComp.map (fun t => strContains searchText t)
  if inp.requireAll then found.all (fun b => b) else found.any (fun b => b)

/-- One iteration of the search loop (state = matched_count). -/
def searchBody (inp : SearchInput) (orc : SearchOracle) (i : Nat) (matched : Nat) :
    Except String (List Event × Nat) :=
  if orc.unitFails i then .error ("search: fallo en página " ++ toString i)
  else
    let hit := pageMatches inp i
    .ok ((if hit then [Event.log "search" ("Coincidencia en página " ++ toString (i + 1))]
          else [])
          ++ [Event.progress "search" (pct (i + 1) inp.pageCount) (i + 1) inp.pageCount],
         if hit then matched + 1 else matched)

structure SearchRun where
  events : List Event
  writes : List String

/-- Models `_task_search_and_extract`.  `uniq` stands for `unique_filename`
against the ambient filesystem. -/
def taskSearch (resultFolder : String) (uniq : String → String)
    (inp : SearchInput) (orc : SearchOracle) (stopAt : Option Nat) : SearchRun :=
  let intro := Event.log "search" ("Iniciando búsqueda en: " ++ inp.pdfBasename)
  if orc.openFails then ⟨[intro, .error "search: no se pudo abrir el PDF"], []⟩
  else
    let lp := runUnits stopAt (searchBody inp orc) 0 inp.pageCount 0
    match lp.2 with
    | .cancelled _ => ⟨intro :: lp.1 ++ [.log "search" stopMsg, .done], []⟩
    | .failed _ m => ⟨intro :: lp.1 ++ [.error m], []⟩
    | .completed matched =>
      if matched > 0 then
        let outPath :=
          uniq (joinPath resultFolder ((splitext inp.pdfBasename).1 ++ "_resultado.pdf"))
        if orc.saveFails then ⟨intro :: lp.1 ++ [.error "search: fallo al guardar"], []⟩
        else
          ⟨intro :: lp.1 ++ [.log "search" ("✅ Archivo generado: " ++ outPath), .done],
           [outPath]⟩
      else ⟨intro :: lp.1 ++ [.log "search" "⚠️ No se encontraron coincidencias.", .done], []⟩

/-! ## Numbering task (_task_add_page_numbers, lines 953-989) -/

structure NumberInput where
  pdfBasename : String
  pageCount : Nat
  startNum : Int
  pageStart : Int
  useNumberInitial : Bool
  prefixText : String

structure NumberOracle where
  openFails : Bool
  unitFails : Nat → Bool
  saveFails : Bool

def okNumberOracle : NumberOracle := ⟨false, fun _ => false, false⟩

/-- Lines 965-971: the label stamped on 0-based page i, `none` when the page
is left unstamped. -/
def numberLabel (inp : NumberInput) (i : Nat) : Option Int :=
  if inp.pageStart ≤ (i : Int) + 1 then
    some (if inp.useNumberInitial then inp.startNum + ((i : Int) - inp.pageStart + 1)
          else (i : Int) + 1)
  else none

/-- One iteration of the numbering loop (state = pages stamped so far). -/
def numberBody (inp : NumberInput) (orc : NumberOracle) (i : Nat)
    (st : List (Nat × Int)) : Except String (List Event × List (Nat × Int)) :=
  if orc.unitFails i then .error ("number: fallo en página " ++ toString i)
  else
    .ok ([Event.progress "number" (pct (i + 1) inp.pageCount) (i + 1) inp.pageCount],
         match numberLabel inp i with
         | some l => st ++ [(i, l)]
         | none => st)

structure NumberRun where
  events : List Event
  writes : List String
  stamped : List (Nat × Int)

/-- Models `_task_add_page_numbers`. -/
def taskAddPageNumbers (resultFolder : String) (uniq : String → String)
    (inp : NumberInput) (orc : NumberOracle) (stopAt : Option Nat) : NumberRun :=
  let intro := Event.log "number" ("Numerando archivo: " ++ inp.pdfBasename)
  if orc.openFails then ⟨[intro, .error "number: no se pudo abrir el PDF"], [], []⟩
  else
    let lp := runUnits stopAt (numberBody inp orc) 0 inp.pageCount []
    match lp.2 with
    | .cancelled st => ⟨intro :: lp.1 ++ [.log "number" stopMsg, .done], [], st⟩
    | .failed st m => ⟨intro :: lp.1 ++ [.error m], [], st⟩
    | .completed st =>
      let outPath :=
        uniq (joinPath resultFolder ((splitext inp.pdfBasename).1 ++ "_numerado.pdf"))
      if orc.saveFails then ⟨intro :: lp.1 ++ [.error "number: fallo al guardar"], [], st⟩
      else
        ⟨intro :: lp.1 ++ [.log "number" ("✅ Archivo generado: " ++ outPath), .done],
         [outPath], st⟩

/-! ## Merge task (_task_merge_pdfs, lines 991-1025) -/

structure MergeInput where
  files : List String
  pageCount : Nat → Nat

/-- Per-file failures are caught by the inner try/except (skip, continue);
only saving can abort the task. -/
structure MergeOracle where
  fileFails : Nat → Bool
  saveFails : Bool

def okMergeOracle : MergeOracle := ⟨fun _ => false, false⟩

/-- Lines 994-998: the output name with the `_unido` suffix forced. -/
def mergeForcedName (outputName : String) : String :=
  if strEndsWith (pyLower outputName) ".pdf" then (splitext outputName).1 ++ "_unido.pdf"
  else outputName ++ "_unido.pdf"

/-- One iteration of the merge loop (state = pages of the accumulating
document, a page being (file index, page index)).  A failing file logs a
warning and contributes nothing; progress is emitted either way. -/
def mergeBody (inp : MergeInput) (orc : MergeOracle) (i : Nat)
    (st : List (Nat × Nat)) : Except String (List Event × List (Nat × Nat)) :=
  let fname := basename (inp.files.getD i "")
  if orc.fileFails i then
    .ok ([Event.log "merge" ("⚠️ Error añadiendo " ++ fname ++ ": fallo al abrir"),
          Event.progress "merge" (pct (i + 1) inp.files.length) (i + 1) inp.files.length],
         st)
  else
    .ok ([Event.log "merge" ("Añadido: " ++ fname),
          Event.progress "merge" (pct (i + 1) inp.files.length) (i + 1) inp.files.length],
         st ++ (List.range (inp.pageCount i)).map (fun p => (i, p)))

structure MergeRun where
  events : List Event
  writes : List String
  mergedPages : List (Nat × Nat)

/-- Models `_task_merge_pdfs`.  `outputName` is the task's `output_name`
argument (the launcher `_start_merge` already joined it with the result
folder and collision-resolved it once). -/
def taskMergePdfs (uniq : String → String) (inp : MergeInput) (outputName : String)
    (orc : MergeOracle) (stopAt : Option Nat) : MergeRun :=
  let intro := Event.log "merge"
    ("Unión de " ++ toString inp.files.length ++ " archivos en: " ++ outputName)
  let outPath := uniq (mergeForcedName outputName)
  let lp := runUnits stopAt (mergeBody inp orc) 0 inp.files.length []
  match lp.2 with
  | .cancelled st => ⟨intro :: lp.1 ++ [.log "merge" stopMsg, .done], [], st⟩
  | .failed st m => ⟨intro :: lp.1 ++ [.error m], [], st⟩
  | .completed st =>
    if orc.saveFails then ⟨intro :: lp.1 ++ [.error "merge: fallo al guardar"], [], st⟩
    else
      ⟨intro :: lp.1 ++ [.log "merge" ("✅ Archivo generado: " ++ outPath), .done],
       [outPath], st⟩

/-! ## Extraction task (_task_extract_pages, lines 1027-1082) -/

structure ExtractInput where
  pdfBasename : String
  pageCount : Nat
  rangesStr : String

structure ExtractOracle where
  openFails : Bool
  unitFails : Nat → Bool
  saveFails : Bool

def okExtractOracle : ExtractOracle := ⟨false, fun _ => false, false⟩

/-- One iteration of the extraction loop over the parsed page list (state =
pages inserted so far); note the source emits progress before the per-page
log here. -/
def extractBody (pages : List Nat) (orc : ExtractOracle) (idx : Nat)
    (st : List Nat) : Except String (List Event × List Nat) :=
  if orc.unitFails idx then .error ("extract: fallo en la unidad " ++ toString idx)
  else
    let p := pages.getD idx 0
    .ok ([Event.progress "extract" (pct (idx + 1) pages.length) (idx + 1) pages.length,
          Event.log "extract" ("Página " ++ toString (p + 1) ++ " añadida")],
         st ++ [p])

structure ExtractRun where
  events : List Event
  writes : List String
  extracted : List Nat

/-- Models `_task_extract_pages`. -/
def taskExtractPages (resultFolder : String) (uniq : String → String)
    (inp : ExtractInput) (orc : ExtractOracle) (stopAt : Option Nat) : ExtractRun :=
  let intro := Event.log "extract" ("Extrayendo páginas de: " ++ inp.pdfBasename)
  if orc.openFails then ⟨[intro, .error "extract: no se pudo abrir el PDF"], [], []⟩
  else
    let pages := pagesToExtract inp.rangesStr inp.pageCount
    if pages.isEmpty then
      ⟨[intro, .log "extract" "⚠️ No hay páginas válidas en la selección.", .done], [], []⟩
    else
      let lp := runUnits stopAt (extractBody pages orc) 0 pages.length []
      match lp.2 with
      | .cancelled st => ⟨intro :: lp.1 ++ [.log "extract" stopMsg, .done], [], st⟩
      | .failed st m => ⟨intro :: lp.1 ++ [.error m], [], st⟩
      | .completed st =>
        let outPath :=
          uniq (joinPath resultFolder ((splitext inp.pdfBasename).1 ++ "_extraido.pdf"))
        if orc.saveFails then ⟨intro :: lp.1 ++ [.error "extract: fallo al guardar"], [], st⟩
        else
          ⟨intro :: lp.1 ++ [.log "extract" ("✅ Archivo generado: " ++ outPath), .done],
           [outPath], st⟩

/-! ## Conversion task (_task_pdf_to_odt, lines 1084-1123) -/

/-- Models Python `str.splitlines()` for the line breaks \n, \r and \r\n
(no trailing empty line). -/
def pySplitlinesAux (cur : List Char) : List Char → List (List Char)
  | [] => if cur.isEmpty then [] else [cur.reverse]
  | '\r' :: '\n' :: rest => cur.reverse :: pySplitlinesAux [] rest
  | '\n' :: rest => cur.reverse :: pySplitlinesAux [] rest
  | '\r' :: rest => cur.reverse :: pySplitlinesAux [] rest
  | c :: rest => pySplitlinesAux (c :: cur) rest

def pySplitlines (s : String) : List String :=
  (pySplitlinesAux [] s.data).map (fun cs => ⟨cs⟩)

structure ConvertInput where
  pdfBasename : String
  hintOpenOk : Bool
  pageCount : Nat
  extractedText : String

/-- The inner fitz.open for the page-count hint is try/except-swallowed
(captured by `hintOpenOk`); extract_text and odt.save can abort the task. -/
structure ConvertOracle where
  extractFails : Bool
  saveFails : Bool

def okConvertOracle : ConvertOracle := ⟨false, false⟩

/-- One iteration of the per-line loop: odfpy paragraph building is
in-memory, so the body only emits progress (10-90% band). -/
def convertBody (total : Nat) (idx : Nat) (st : Unit) : Except String (List Event × Unit) :=
  .ok ([Event.progress "pdf2odt" (10 + 80 * (idx + 1) / total) (idx + 1) total], st)

structure ConvertRun where
  events : List Event
  writes : List String

/-- Models `_task_pdf_to_odt`. -/
def taskPdfToOdt (resultFolder : String) (uniq : String → String)
    (inp : ConvertInput) (orc : ConvertOracle) (stopAt : Option Nat) : ConvertRun :=
  let intro := Event.log "pdf2odt" ("Iniciando conversión: " ++ inp.pdfBasename)
  let hint := if inp.hintOpenOk then max 1 inp.pageCount else 1
  if orc.extractFails then ⟨[intro, .error "pdf2odt: fallo en extract_text"], []⟩
  else
    let lines := pySplitlines inp.extractedText
    let preloop := Event.progress "pdf2odt" 10 1 hint
    let total := max 1 lines.length
    let lp := runUnits stopAt (convertBody total) 0 lines.length ()
    match lp.2 with
    | .cancelled _ => ⟨intro :: preloop :: lp.1 ++ [.log "pdf2odt" stopMsg, .done], []⟩
    | .failed _ m => ⟨intro :: preloop :: lp.1 ++ [.error m], []⟩
    | .completed _ =>
      let outPath := uniq (joinPath resultFolder ((splitext inp.pdfBasename).1 ++ ".odt"))
      if orc.saveFails then ⟨intro :: preloop :: lp.1 ++ [.error "pdf2odt: fallo al guardar"], []⟩
      else
        ⟨intro :: preloop :: lp.1 ++
          [.log "pdf2odt" ("✅ Archivo generado: " ++ outPath),
           Event.progress "pdf2odt" 100 total total, .done],
         [outPath]⟩

/-! ## Launcher and button-state model (TaskRunner, C3)

`_start_search` (and the other four launchers, lines 809-908) validate their
inputs synchronously and then spawn a `Worker`; none of them inspects
`self.active_worker`.  Mutual exclusion comes only from
`_set_buttons_state(True)` (lines 693-711) disabling every start button
while a task runs, and from `_process_queue` (lines 788-801) re-enabling
them when it consumes the terminal event.  The model tracks the number of
alive workers and the button states; tkinter semantics make a disabled
button's command impossible to fire through the UI. -/

structure UIState where
  aliveWorkers : Nat
  startEnabled : Bool
  stopEnabled : Bool
  deriving DecidableEq, Repr

def initialUI : UIState := ⟨0, true, false⟩

/-- Models `_set_buttons_state(started)`. -/
def setButtonsState (s : UIState) (started : Bool) : UIState :=
  { s with startEnabled := !started, stopEnabled := started }

/-- Models the body of a launcher (e.g. `_start_search`) after validation:
clear the log view, `_set_buttons_state(True)`, create and start a Worker,
overwrite `active_worker` — with no check that a worker is already alive. -/
def launcherInvoke (s : UIState) (valid : Bool) : UIState :=
  if valid then { setButtonsState s true with aliveWorkers := s.aliveWorkers + 1 }
  else s

/-- Models the "done"/"error" branch of `_process_queue`: the worker that
posted the terminal event has finished; `_set_buttons_state(False)` and
`active_worker = None`. -/
def consumeTerminal (s : UIState) : UIState :=
  { setButtonsState s false with aliveWorkers := s.aliveWorkers - 1 }

/-- UI semantics: a start-button click fires the launcher only while the
button is enabled; a terminal event is consumed only when a worker is alive
to have produced it.  (The stop button merely sets the cancellation flag and
touches none of the modelled fields.) -/
inductive UIStep : UIState → UIState → Prop
  | click (s : UIState) (valid : Bool) (h : s.startEnabled = true) :
      UIStep s (launcherInvoke s valid)
  | finish (s : UIState) (h : 0 < s.aliveWorkers) : UIStep s (consumeTerminal s)

/-- States the UI can reach from the idle start state. -/
def UIReachable (s : UIState) : Prop := Relation.ReflTransGen UIStep initialUI s

/-! ## Derived event/name descriptions used by the theorems -/

/-- The two events one merge unit emits, as a function of the failure
oracle: a warning log for a skipped file, an added log otherwise, then the
progress event either way. -/
def mergeUnitEvents (inp : MergeInput) (ff : Nat → Bool) (i : Nat) : List Event :=
  if ff i then
    [Event.log "merge"
      ("⚠️ Error añadiendo " ++ basename (inp.files.getD i "") ++ ": fallo al abrir"),
     Event.progress "merge" (pct (i + 1) inp.files.length) (i + 1) inp.files.length]
  else
    [Event.log "merge" ("Añadido: " ++ basename (inp.files.getD i "")),
     Event.progress "merge" (pct (i + 1) inp.files.length) (i + 1) inp.files.length]

/-- Recognise the merge task's per-file skip warning in a trace. -/
def isMergeErrorLog : Event → Bool
  | .log c t => c == "merge" && strContains t "Error añadiendo"
  | _ => false

/-- The output-name rule exactly as claim C8 words it: strip any existing
extension from the user-entered name, then force the `_unido` suffix with
extension .pdf.  Compared against `mergeForcedName`, which is the rule the
source implements. -/
def mergeForcedNameSpec (outputName : String) : String :=
  (splitext outputName).1 ++ "_unido.pdf"

/-! ## Generic lemmas about the loop skeleton -/

theorem wfTrace_ne_nil {l : List Event} (h : wfTrace l = true) : l ≠ [] := by
  intro hl; subst hl; simp [wfTrace] at h

theorem wfTrace_append (pre rest : List Event)
    (hpre : ∀ e ∈ pre, e.isEmit = true) (hrest : wfTrace rest = true) :
    wfTrace (pre ++ rest) = true := by
  induction pre with
  | nil => simpa using hrest
  | cons e pre ih =>
    have hne : pre ++ rest ≠ [] := by
      intro h
      rcases List.append_eq_nil.mp h with ⟨_, h2⟩
      exact wfTrace_ne_nil hrest h2
    have ih' := ih (fun x hx => hpre x (List.mem_cons_of_mem _ hx))
    rcases hpr : pre ++ rest with _ | ⟨x, xs⟩
    · exact absurd hpr hne
    · have he : e.isEmit = true := hpre e (List.mem_cons_self e pre)
      calc wfTrace (e :: pre ++ rest) = wfTrace (e :: x :: xs) := by rw [List.cons_append, hpr]
        _ = (e.isEmit && wfTrace (x :: xs)) := rfl
        _ = true := by rw [he, ← hpr, ih']; rfl

theorem runUnits_emits {σ : Type} (stopAt : Option Nat)
    (body : Nat → σ → Except String (List Event × σ))
    (hbody : ∀ i st es st', body i st = .ok (es, st') → ∀ e ∈ es, e.isEmit = true) :
    ∀ r i st, ∀ e ∈ (runUnits stopAt body i r st).1, e.isEmit = true := by
  intro r
  induction r with
  | zero => intro i st e he; simp [runUnits] at he
  | succ r ih =>
    intro i st e he
    rw [runUnits] at he
    by_cases hs : isSet stopAt i = true
    · simp [hs] at he
    · rw [Bool.not_eq_true] at hs
      rcases hb : body i st with m | ⟨es, st'⟩
      · simp [hs, hb] at he
      · simp only [hs, hb, Bool.false_eq_true, if_false] at he
        rcases List.mem_append.mp he with h1 | h2
        · exact hbody i st es st' hb e h1
        · exact ih (i + 1) st' e h2

theorem runUnits_completes {σ : Type}
    (body : Nat → σ → Except String (List Event × σ))
    (hok : ∀ i st, ∃ es st', body i st = .ok (es, st')) :
    ∀ r i st, ∃ pre stc, runUnits none body i r st = (pre, .completed stc) := by
  intro r
  induction r with
  | zero => intro i st; exact ⟨[], st, rfl⟩
  | succ r ih =>
    intro i st
    obtain ⟨es, st', hb⟩ := hok i st
    obtain ⟨pre, stc, hrec⟩ := ih (i + 1) st'
    refine ⟨es ++ pre, stc, ?_⟩
    rw [runUnits]
    simp [isSet, hb, hrec]

theorem runUnits_cancel {σ : Type}
    (body : Nat → σ → Except String (List Event × σ)) (s : Nat) (P : Event → Prop)
    (hok : ∀ j st, j < s → ∃ es st', body j st = .ok (es, st') ∧ ∀ e ∈ es, P e) :
    ∀ r i st, i ≤ s → s < i + r →
      ∃ pre stc, runUnits (some s) body i r st = (pre, .cancelled stc) ∧ ∀ e ∈ pre, P e := by
  intro r
  induction r with
  | zero => intro i st h1 h2; omega
  | succ r ih =>
    intro i st h1 h2
    by_cases hi : s ≤ i
    · have : i = s := le_antisymm h1 hi
      subst this
      refine ⟨[], st, ?_, by simp⟩
      rw [runUnits]; simp [isSet]
    · have hi' : i < s := lt_of_not_le hi
      obtain ⟨es, st', hb, hP⟩ := hok i st hi'
      obtain ⟨pre, stc, hrec, hPre⟩ := ih (i + 1) st' hi' (by omega)
      refine ⟨es ++ pre, stc, ?_, ?_⟩
      · rw [runUnits]
        simp only [isSet, hb]
        have : decide (s ≤ i) = false := by simp [hi]
        simp [this, hrec]
      · intro e he
        rcases List.mem_append.mp he with h | h
        · exact hP e h
        · exact hPre e h

/-! ## Per-task body facts -/

theorem searchBody_emits (inp : SearchInput) (orc : SearchOracle) :
    ∀ i st es st', searchBody inp orc i st = .ok (es, st') → ∀ e ∈ es, e.isEmit = true := by
  intro i st es st' h e he
  cases hf : orc.unitFails i
  · simp only [searchBody, hf, Bool.false_eq_true, if_false, Except.ok.injEq,
      Prod.mk.injEq] at h
    obtain ⟨h1, _⟩ := h
    subst h1
    rcases List.mem_append.mp he with h | h
    · by_cases hhit : pageMatches inp i
      · simp [hhit] at h; subst h; rfl
      · simp [hhit] at h
    · simp at h; subst h; rfl
  · simp [searchBody, hf] at h

theorem numberBody_emits (inp : NumberInput) (orc : NumberOracle) :
    ∀ i st es st', numberBody inp orc i st = .ok (es, st') → ∀ e ∈ es, e.isEmit = true := by
  intro i st es st' h e he
  cases hf : orc.unitFails i
  · simp only [numberBody, hf, Bool.false_eq_true, if_false, Except.ok.injEq,
      Prod.mk.injEq] at h
    obtain ⟨h1, _⟩ := h
    subst h1
    simp at he; subst he; rfl
  · simp [numberBody, hf] at h

theorem mergeBody_emits (inp : MergeInput) (orc : MergeOracle) :
    ∀ i st es st', mergeBody inp orc i st = .ok (es, st') → ∀ e ∈ es, e.isEmit = true := by
  intro i st es st' h e he
  cases hf : orc.fileFails i
  · simp only [mergeBody, hf, Bool.false_eq_true, if_false, Except.ok.injEq,
      Prod.mk.injEq] at h
    obtain ⟨h1, _⟩ := h
    subst h1
    simp only [List.mem_cons, List.not_mem_nil, or_false] at he
    rcases he with rfl | rfl
    · rfl
    · rfl
  · simp only [mergeBody, hf, if_true, Except.ok.injEq, Prod.mk.injEq] at h
    obtain ⟨h1, _⟩ := h
    subst h1
    simp only [List.mem_cons, List.not_mem_nil, or_false] at he
    rcases he with rfl | rfl
    · rfl
    · rfl

theorem extractBody_emits (pages : List Nat) (orc : ExtractOracle) :
    ∀ i st es st', extractBody pages orc i st = .ok (es, st') → ∀ e ∈ es, e.isEmit = true := by
  intro i st es st' h e he
  cases hf : orc.unitFails i
  · simp only [extractBody, hf, Bool.false_eq_true, if_false, Except.ok.injEq,
      Prod.mk.injEq] at h
    obtain ⟨h1, _⟩ := h
    subst h1
    simp only [List.mem_cons, List.not_mem_nil, or_false] at he
    rcases he with rfl | rfl
    · rfl
    · rfl
  · simp [extractBody, hf] at h

theorem convertBody_emits (total : Nat) :
    ∀ i st es st', convertBody total i st = .ok (es, st') → ∀ e ∈ es, e.isEmit = true := by
  intro i st es st' h e he
  simp only [convertBody, Except.ok.injEq, Prod.mk.injEq] at h
  obtain ⟨h1, _⟩ := h
  subst h1
  simp at he; subst he; rfl

/-! ## Trace discipline of each task (towards C1) -/

theorem taskSearch_wf (rf : String) (uniq : String → String) (inp : SearchInput)
    (orc : SearchOracle) (stopAt : Option Nat) :
    wfTrace (taskSearch rf uniq inp orc stopAt).events = true := by
  unfold taskSearch
  by_cases ho : orc.openFails
  · simp [ho, wfTrace, Event.isEmit, Event.isTerminal]
  · simp only [ho, Bool.false_eq_true, if_false]
    rcases hlp : runUnits stopAt (searchBody inp orc) 0 inp.pageCount 0 with ⟨evs, out⟩
    have hemits : ∀ e ∈ evs, e.isEmit = true := by
      have h := runUnits_emits stopAt (searchBody inp orc) (searchBody_emits inp orc)
        inp.pageCount 0 0
      rw [hlp] at h; exact h
    have hpre : ∀ e ∈ Event.log "search" ("Iniciando búsqueda en: " ++ inp.pdfBasename) :: evs,
        e.isEmit = true := by
      intro e he
      rcases List.mem_cons.mp he with rfl | h
      · rfl
      · exact hemits e h
    cases out with
    | cancelled st =>
      exact wfTrace_append _ [Event.log "search" stopMsg, Event.done] hpre (by rfl)
    | failed st m =>
      exact wfTrace_append _ [Event.error m] hpre (by rfl)
    | completed matched =>
      by_cases hm : matched > 0
      · by_cases hs : orc.saveFails
        · simp only [hm, if_true, hs]
          exact wfTrace_append _ [Event.error "search: fallo al guardar"] hpre (by rfl)
        · simp only [hm, if_true, hs, Bool.false_eq_true, if_false]
          exact wfTrace_append _ [Event.log "search" _, Event.done] hpre (by rfl)
      · simp only [hm, if_false]
        exact wfTrace_append _ [Event.log "search" _, Event.done] hpre (by rfl)

theorem taskAddPageNumbers_wf (rf : String) (uniq : String → String) (inp : NumberInput)
    (orc : NumberOracle) (stopAt : Option Nat) :
    wfTrace (taskAddPageNumbers rf uniq inp orc stopAt).events = true := by
  unfold taskAddPageNumbers
  by_cases ho : orc.openFails
  · simp [ho, wfTrace, Event.isEmit, Event.isTerminal]
  · simp only [ho, Bool.false_eq_true, if_false]
    rcases hlp : runUnits stopAt (numberBody inp orc) 0 inp.pageCount [] with ⟨evs, out⟩
    have hemits : ∀ e ∈ evs, e.isEmit = true := by
      have h := runUnits_emits stopAt (numberBody inp orc) (numberBody_emits inp orc)
        inp.pageCount 0 []
      rw [hlp] at h; exact h
    have hpre : ∀ e ∈ Event.log "number" ("Numerando archivo: " ++ inp.pdfBasename) :: evs,
        e.isEmit = true := by
      intro e he
      rcases List.mem_cons.mp he with rfl | h
      · rfl
      · exact hemits e h
    cases out with
    | cancelled st =>
      exact wfTrace_append _ [Event.log "number" stopMsg, Event.done] hpre (by rfl)
    | failed st m =>
      exact wfTrace_append _ [Event.error m] hpre (by rfl)
    | completed st =>
      by_cases hs : orc.saveFails
      · simp only [hs, if_true]
        exact wfTrace_append _ [Event.error "number: fallo al guardar"] hpre (by rfl)
      · simp only [hs, Bool.false_eq_true, if_false]
        exact wfTrace_append _ [Event.log "number" _, Event.done] hpre (by rfl)

theorem taskMergePdfs_wf (uniq : String → String) (inp : MergeInput) (outputName : String)
    (orc : MergeOracle) (stopAt : Option Nat) :
    wfTrace (taskMergePdfs uniq inp outputName orc stopAt).events = true := by
  unfold taskMergePdfs
  rcases hlp : runUnits stopAt (mergeBody inp orc) 0 inp.files.length [] with ⟨evs, out⟩
  have hemits : ∀ e ∈ evs, e.isEmit = true := by
    have h := runUnits_emits stopAt (mergeBody inp orc) (mergeBody_emits inp orc)
      inp.files.length 0 []
    rw [hlp] at h; exact h
  have hpre : ∀ e ∈ Event.log "merge"
      ("Unión de " ++ toString inp.files.length ++ " archivos en: " ++ outputName) :: evs,
      e.isEmit = true := by
    intro e he
    rcases List.mem_cons.mp he with rfl | h
    · rfl
    · exact hemits e h
  cases out with
  | cancelled st =>
    exact wfTrace_append _ [Event.log "merge" stopMsg, Event.done] hpre (by rfl)
  | failed st m =>
    exact wfTrace_append _ [Event.error m] hpre (by rfl)
  | completed st =>
    by_cases hs : orc.saveFails
    · simp only [hs, if_true]
      exact wfTrace_append _ [Event.error "merge: fallo al guardar"] hpre (by rfl)
    · simp only [hs, Bool.false_eq_true, if_false]
      exact wfTrace_append _ [Event.log "merge" _, Event.done] hpre (by rfl)

theorem taskExtractPages_wf (rf : String) (uniq : String → String) (inp : ExtractInput)
    (orc : ExtractOracle) (stopAt : Option Nat) :
    wfTrace (taskExtractPages rf uniq inp orc stopAt).events = true := by
  unfold taskExtractPages
  by_cases ho : orc.openFails
  · simp [ho, wfTrace, Event.isEmit, Event.isTerminal]
  · simp only [ho, Bool.false_eq_true, if_false]
    by_cases hemp : (pagesToExtract inp.rangesStr inp.pageCount).isEmpty
    · simp [hemp, wfTrace, Event.isEmit, Event.isTerminal]
    · simp only [hemp, Bool.false_eq_true, if_false]
      rcases hlp : runUnits stopAt
        (extractBody (pagesToExtract inp.rangesStr inp.pageCount) orc) 0
        (pagesToExtract inp.rangesStr inp.pageCount).length [] with ⟨evs, out⟩
      have hemits : ∀ e ∈ evs, e.isEmit = true := by
        have h := runUnits_emits stopAt
          (extractBody (pagesToExtract inp.rangesStr inp.pageCount) orc)
          (extractBody_emits (pagesToExtract inp.rangesStr inp.pageCount) orc)
          (pagesToExtract inp.rangesStr inp.pageCount).length 0 []
        rw [hlp] at h; exact h
      have hpre : ∀ e ∈ Event.log "extract" ("Extrayendo páginas de: " ++ inp.pdfBasename) :: evs,
          e.isEmit = true := by
        intro e he
        rcases List.mem_cons.mp he with rfl | h
        · rfl
        · exact hemits e h
      cases out with
      | cancelled st =>
        exact wfTrace_append _ [Event.log "extract" stopMsg, Event.done] hpre (by rfl)
      | failed st m =>
        exact wfTrace_append _ [Event.error m] hpre (by rfl)
      | completed st =>
        by_cases hs : orc.saveFails
        · simp only [hs, if_true]
          exact wfTrace_append _ [Event.error "extract: fallo al guardar"] hpre (by rfl)
        · simp only [hs, Bool.false_eq_true, if_false]
          exact wfTrace_append _ [Event.log "extract" _, Event.done] hpre (by rfl)

theorem taskPdfToOdt_wf (rf : String) (uniq : String → String) (inp : ConvertInput)
    (orc : ConvertOracle) (stopAt : Option Nat) :
    wfTrace (taskPdfToOdt rf uniq inp orc stopAt).events = true := by
  unfold taskPdfToOdt
  by_cases ho : orc.extractFails
  · simp [ho, wfTrace, Event.isEmit, Event.isTerminal]
  · simp only [ho, Bool.false_eq_true, if_false]
    rcases hlp : runUnits stopAt (convertBody (max 1 (pySplitlines inp.extractedText).length)) 0
      (pySplitlines inp.extractedText).length () with ⟨evs, out⟩
    have hemits : ∀ e ∈ evs, e.isEmit = true := by
      have h := runUnits_emits stopAt (convertBody (max 1 (pySplitlines inp.extractedText).length))
        (convertBody_emits (max 1 (pySplitlines inp.extractedText).length))
        (pySplitlines inp.extractedText).length 0 ()
      rw [hlp] at h; exact h
    have hpre : ∀ e ∈ Event.log "pdf2odt" ("Iniciando conversión: " ++ inp.pdfBasename) ::
        Event.progress "pdf2odt" 10 1 (if inp.hintOpenOk then max 1 inp.pageCount else 1) :: evs,
        e.isEmit = true := by
      intro e he
      rcases List.mem_cons.mp he with rfl | h
      · rfl
      · rcases List.mem_cons.mp h with rfl | h'
        · rfl
        · exact hemits e h'
    cases out with
    | cancelled st =>
      exact wfTrace_append _ [Event.log "pdf2odt" stopMsg, Event.done] hpre (by rfl)
    | failed st m =>
      exact wfTrace_append _ [Event.error m] hpre (by rfl)
    | completed st =>
      by_cases hs : orc.saveFails
      · simp only [hs, if_true]
        exact wfTrace_append _ [Event.error "pdf2odt: fallo al guardar"] hpre (by rfl)
      · simp only [hs, Bool.false_eq_true, if_false]
        exact wfTrace_append _
          [Event.log "pdf2odt" _,
           Event.progress "pdf2odt" 100 (max 1 (pySplitlines inp.extractedText).length)
             (max 1 (pySplitlines inp.extractedText).length), Event.done] hpre (by rfl)

theorem wfTrace_spec : ∀ l : List Event, wfTrace l = true →
    ∃ pre t, l = pre ++ [t] ∧ (∀ e ∈ pre, e.isEmit = true) ∧ t.isTerminal = true := by
  intro l
  induction l with
  | nil => intro h; simp [wfTrace] at h
  | cons e es ih =>
    intro h
    cases es with
    | nil => exact ⟨[], e, rfl, by simp, h⟩
    | cons x xs =>
      have h' : e.isEmit = true ∧ wfTrace (x :: xs) = true := by
        simpa [wfTrace] using h
      obtain ⟨pre, t, heq, hpre, ht⟩ := ih h'.2
      refine ⟨e :: pre, t, by rw [heq]; rfl, ?_, ht⟩
      intro a ha
      rcases List.mem_cons.mp ha with rfl | ha
      · exact h'.1
      · exact hpre a ha

/-- C1: for every task run of every kind (Search, Number, Merge, Extract,
Convert), every cancellation schedule and every failure-oracle outcome
(natural completion, cancellation, unexpected failure), the emitted event
sequence is progress/log events in emission order followed by exactly one
terminal event, Done or Error — so once an Error is emitted the run is over
and no Done ever follows it (the last conjunct unfolds `wfTrace` into that
shape). -/
theorem c1_terminal_event_discipline :
    (∀ rf uniq inp orc stopAt, wfTrace (taskSearch rf uniq inp orc stopAt).events = true) ∧
    (∀ rf uniq inp orc stopAt,
      wfTrace (taskAddPageNumbers rf uniq inp orc stopAt).events = true) ∧
    (∀ uniq inp out orc stopAt, wfTrace (taskMergePdfs uniq inp out orc stopAt).events = true) ∧
    (∀ rf uniq inp orc stopAt, wfTrace (taskExtractPages rf uniq inp orc stopAt).events = true) ∧
    (∀ rf uniq inp orc stopAt, wfTrace (taskPdfToOdt rf uniq inp orc stopAt).events = true) ∧
    (∀ l : List Event, wfTrace l = true →
      ∃ pre t, l = pre ++ [t] ∧ (∀ e ∈ pre, e.isEmit = true) ∧ t.isTerminal = true) :=
  ⟨taskSearch_wf, taskAddPageNumbers_wf, taskMergePdfs_wf, taskExtractPages_wf,
   taskPdfToOdt_wf, wfTrace_spec⟩

/-- Witness for C1 at a concrete run: a two-page search task cancelled at the
first check still produces a well-formed trace, and `wfTrace` decomposes it. -/
theorem c1_terminal_event_discipline_witness :
    ∃ pre t,
      (taskSearch "res" id ⟨"a.pdf", 2, fun _ => "", [], false, false⟩
        okSearchOracle (some 0)).events = pre ++ [t] ∧
      (∀ e ∈ pre, e.isEmit = true) ∧ t.isTerminal = true :=
  c1_terminal_event_discipline.2.2.2.2.2 _
    (c1_terminal_event_discipline.1 "res" id ⟨"a.pdf", 2, fun _ => "", [], false, false⟩
      okSearchOracle (some 0))

/-! ## Cancellation behaviour (towards C2, C10) -/

theorem taskSearch_cancel_spec (rf : String) (uniq : String → String) (inp : SearchInput)
    (s : Nat) (hs : s < inp.pageCount) :
    (taskSearch rf uniq inp okSearchOracle (some s)).writes = [] ∧
    (∃ pre, (taskSearch rf uniq inp okSearchOracle (some s)).events =
      pre ++ [Event.log "search" stopMsg, Event.done]) ∧
    (∀ e ∈ (taskSearch rf uniq inp okSearchOracle (some s)).events,
      e.percent? ≠ some 100) := by
  have hbody : ∀ j st, j < s →
      ∃ es st', searchBody inp okSearchOracle j st = .ok (es, st') ∧
        ∀ e ∈ es, ∀ p, e.percent? = some p → p < 100 := by
    intro j st hj
    refine ⟨(if pageMatches inp j then
        [Event.log "search" ("Coincidencia en página " ++ toString (j + 1))] else [])
        ++ [Event.progress "search" (pct (j + 1) inp.pageCount) (j + 1) inp.pageCount],
      if pageMatches inp j then st + 1 else st, by simp [searchBody, okSearchOracle], ?_⟩
    intro e he p hp
    rcases List.mem_append.mp he with h | h
    · by_cases hhit : pageMatches inp j
      · simp [hhit] at h; subst h; simp [Event.percent?] at hp
      · simp [hhit] at h
    · simp at h; subst h
      simp only [Event.percent?, Option.some.injEq] at hp
      subst hp
      have hpos : 0 < inp.pageCount := by omega
      exact (Nat.div_lt_iff_lt_mul hpos).mpr (by omega)
  obtain ⟨pre, stc, heq, hP⟩ := runUnits_cancel (searchBody inp okSearchOracle) s
    (fun e => ∀ p, e.percent? = some p → p < 100) hbody inp.pageCount 0 0
    (Nat.zero_le s) (by omega)
  unfold taskSearch
  have ho : okSearchOracle.openFails = false := rfl
  simp only [ho, Bool.false_eq_true, if_false, heq]
  refine ⟨trivial, ⟨Event.log "search" ("Iniciando búsqueda en: " ++ inp.pdfBasename) :: pre, rfl⟩, ?_⟩
  intro e he hpe
  rcases List.mem_cons.mp he with rfl | h
  · simp [Event.percent?] at hpe
  · rcases List.mem_append.mp h with h' | h'
    · exact absurd (hP e h' 100 hpe) (by omega)
    · simp only [List.mem_cons, List.not_mem_nil, or_false] at h'
      rcases h' with rfl | rfl
      · simp [Event.percent?] at hpe
      · simp [Event.percent?] at hpe

theorem taskAddPageNumbers_cancel_spec (rf : String) (uniq : String → String)
    (inp : NumberInput) (s : Nat) (hs : s < inp.pageCount) :
    (taskAddPageNumbers rf uniq inp okNumberOracle (some s)).writes = [] ∧
    (∃ pre, (taskAddPageNumbers rf uniq inp okNumberOracle (some s)).events =
      pre ++ [Event.log "number" stopMsg, Event.done]) ∧
    (∀ e ∈ (taskAddPageNumbers rf uniq inp okNumberOracle (some s)).events,
      e.percent? ≠ some 100) := by
  have hbody : ∀ j st, j < s →
      ∃ es st', numberBody inp okNumberOracle j st = .ok (es, st') ∧
        ∀ e ∈ es, ∀ p, e.percent? = some p → p < 100 := by
    intro j st hj
    refine ⟨[Event.progress "number" (pct (j + 1) inp.pageCount) (j + 1) inp.pageCount],
      match numberLabel inp j with
      | some l => st ++ [(j, l)]
      | none => st, by simp [numberBody, okNumberOracle], ?_⟩
    intro e he p hp
    simp at he; subst he
    simp only [Event.percent?, Option.some.injEq] at hp
    subst hp
    have hpos : 0 < inp.pageCount := by omega
    exact (Nat.div_lt_iff_lt_mul hpos).mpr (by omega)
  obtain ⟨pre, stc, heq, hP⟩ := runUnits_cancel (numberBody inp okNumberOracle) s
    (fun e => ∀ p, e.percent? = some p → p < 100) hbody inp.pageCount 0 []
    (Nat.zero_le s) (by omega)
  unfold taskAddPageNumbers
  have ho : okNumberOracle.openFails = false := rfl
  simp only [ho, Bool.false_eq_true, if_false, heq]
  refine ⟨trivial,
    ⟨Event.log "number" ("Numerando archivo: " ++ inp.pdfBasename) :: pre, rfl⟩, ?_⟩
  intro e he hpe
  rcases List.mem_cons.mp he with rfl | h
  · simp [Event.percent?] at hpe
  · rcases List.mem_append.mp h with h' | h'
    · exact absurd (hP e h' 100 hpe) (by omega)
    · simp only [List.mem_cons, List.not_mem_nil, or_false] at h'
      rcases h' with rfl | rfl
      · simp [Event.percent?] at hpe
      · simp [Event.percent?] at hpe

theorem taskMergePdfs_cancel_spec (uniq : String → String) (inp : MergeInput)
    (outputName : String) (s : Nat) (hs : s < inp.files.length) :
    (taskMergePdfs uniq inp outputName okMergeOracle (some s)).writes = [] ∧
    (∃ pre, (taskMergePdfs uniq inp outputName okMergeOracle (some s)).events =
      pre ++ [Event.log "merge" stopMsg, Event.done]) ∧
    (∀ e ∈ (taskMergePdfs uniq inp outputName okMergeOracle (some s)).events,
      e.percent? ≠ some 100) := by
  have hbody : ∀ j st, j < s →
      ∃ es st', mergeBody inp okMergeOracle j st = .ok (es, st') ∧
        ∀ e ∈ es, ∀ p, e.percent? = some p → p < 100 := by
    intro j st hj
    refine ⟨[Event.log "merge" ("Añadido: " ++ basename (inp.files.getD j "")),
        Event.progress "merge" (pct (j + 1) inp.files.length) (j + 1) inp.files.length],
      st ++ (List.range (inp.pageCount j)).map (fun p => (j, p)),
      by simp [mergeBody, okMergeOracle], ?_⟩
    intro e he p hp
    simp only [List.mem_cons, List.not_mem_nil, or_false] at he
    rcases he with rfl | rfl
    · simp [Event.percent?] at hp
    · simp only [Event.percent?, Option.some.injEq] at hp
      subst hp
      have hpos : 0 < inp.files.length := by omega
      exact (Nat.div_lt_iff_lt_mul hpos).mpr (by omega)
  obtain ⟨pre, stc, heq, hP⟩ := runUnits_cancel (mergeBody inp okMergeOracle) s
    (fun e => ∀ p, e.percent? = some p → p < 100) hbody inp.files.length 0 []
    (Nat.zero_le s) (by omega)
  unfold taskMergePdfs
  simp only [heq]
  refine ⟨trivial,
    ⟨Event.log "merge"
      ("Unión de " ++ toString inp.files.length ++ " archivos en: " ++ outputName) :: pre,
      rfl⟩, ?_⟩
  intro e he hpe
  rcases List.mem_cons.mp he with rfl | h
  · simp [Event.percent?] at hpe
  · rcases List.mem_append.mp h with h' | h'
    · exact absurd (hP e h' 100 hpe) (by omega)
    · simp only [List.mem_cons, List.not_mem_nil, or_false] at h'
      rcases h' with rfl | rfl
      · simp [Event.percent?] at hpe
      · simp [Event.percent?] at hpe

theorem taskExtractPages_cancel_spec (rf : String) (uniq : String → String)
    (inp : ExtractInput) (s : Nat)
    (hs : s < (pagesToExtract inp.rangesStr inp.pageCount).length) :
    (taskExtractPages rf uniq inp okExtractOracle (some s)).writes = [] ∧
    (∃ pre, (taskExtractPages rf uniq inp okExtractOracle (some s)).events =
      pre ++ [Event.log "extract" stopMsg, Event.done]) ∧
    (∀ e ∈ (taskExtractPages rf uniq inp okExtractOracle (some s)).events,
      e.percent? ≠ some 100) := by
  have hbody : ∀ j st, j < s →
      ∃ es st', extractBody (pagesToExtract inp.rangesStr inp.pageCount) okExtractOracle j st
        = .ok (es, st') ∧ ∀ e ∈ es, ∀ p, e.percent? = some p → p < 100 := by
    intro j st hj
    refine ⟨[Event.progress "extract"
        (pct (j + 1) (pagesToExtract inp.rangesStr inp.pageCount).length) (j + 1)
        (pagesToExtract inp.rangesStr inp.pageCount).length,
      Event.log "extract"
        ("Página " ++ toString ((pagesToExtract inp.rangesStr inp.pageCount).getD j 0 + 1)
          ++ " añadida")],
      st ++ [(pagesToExtract inp.rangesStr inp.pageCount).getD j 0],
      by simp [extractBody, okExtractOracle], ?_⟩
    intro e he p hp
    simp only [List.mem_cons, List.not_mem_nil, or_false] at he
    rcases he with rfl | rfl
    · simp only [Event.percent?, Option.some.injEq] at hp
      subst hp
      have hpos : 0 < (pagesToExtract inp.rangesStr inp.pageCount).length := by omega
      exact (Nat.div_lt_iff_lt_mul hpos).mpr (by omega)
    · simp [Event.percent?] at hp
  obtain ⟨pre, stc, heq, hP⟩ := runUnits_cancel
    (extractBody (pagesToExtract inp.rangesStr inp.pageCount) okExtractOracle) s
    (fun e => ∀ p, e.percent? = some p → p < 100) hbody
    (pagesToExtract inp.rangesStr inp.pageCount).length 0 []
    (Nat.zero_le s) (by omega)
  unfold taskExtractPages
  have ho : okExtractOracle.openFails = false := rfl
  have hemp : (pagesToExtract inp.rangesStr inp.pageCount).isEmpty = false := by
    rcases hh : pagesToExtract inp.rangesStr inp.pageCount with _ | ⟨a, l⟩
    · rw [hh] at hs; simp at hs
    · rfl
  simp only [ho, Bool.false_eq_true, if_false, hemp, heq]
  refine ⟨trivial,
    ⟨Event.log "extract" ("Extrayendo páginas de: " ++ inp.pdfBasename) :: pre, rfl⟩, ?_⟩
  intro e he hpe
  rcases List.mem_cons.mp he with rfl | h
  · simp [Event.percent?] at hpe
  · rcases List.mem_append.mp h with h' | h'
    · exact absurd (hP e h' 100 hpe) (by omega)
    · simp only [List.mem_cons, List.not_mem_nil, or_false] at h'
      rcases h' with rfl | rfl
      · simp [Event.percent?] at hpe
      · simp [Event.percent?] at hpe

theorem taskPdfToOdt_cancel_spec (rf : String) (uniq : String → String)
    (inp : ConvertInput) (s : Nat)
    (hs : s < (pySplitlines inp.extractedText).length) :
    (taskPdfToOdt rf uniq inp okConvertOracle (some s)).writes = [] ∧
    (∃ pre, (taskPdfToOdt rf uniq inp okConvertOracle (some s)).events =
      pre ++ [Event.log "pdf2odt" stopMsg, Event.done]) ∧
    (∀ e ∈ (taskPdfToOdt rf uniq inp okConvertOracle (some s)).events,
      e.percent? ≠ some 100) := by
  have hbody : ∀ j st, j < s →
      ∃ es st', convertBody (max 1 (pySplitlines inp.extractedText).length) j st
        = .ok (es, st') ∧ ∀ e ∈ es, ∀ p, e.percent? = some p → p < 100 := by
    intro j st hj
    refine ⟨[Event.progress "pdf2odt"
        (10 + 80 * (j + 1) / max 1 (pySplitlines inp.extractedText).length) (j + 1)
        (max 1 (pySplitlines inp.extractedText).length)], st, rfl, ?_⟩
    intro e he p hp
    simp at he; subst he
    simp only [Event.percent?, Option.some.injEq] at hp
    subst hp
    have hpos : 0 < max 1 (pySplitlines inp.extractedText).length := by omega
    have h1 : 80 * (j + 1) ≤ 80 * max 1 (pySplitlines inp.extractedText).length := by omega
    have h2 := Nat.div_le_div_right (c := max 1 (pySplitlines inp.extractedText).length) h1
    rw [Nat.mul_div_cancel _ hpos] at h2
    omega
  obtain ⟨pre, stc, heq, hP⟩ := runUnits_cancel
    (convertBody (max 1 (pySplitlines inp.extractedText).length)) s
    (fun e => ∀ p, e.percent? = some p → p < 100) hbody
    (pySplitlines inp.extractedText).length 0 ()
    (Nat.zero_le s) (by omega)
  unfold taskPdfToOdt
  have ho : okConvertOracle.extractFails = false := rfl
  simp only [ho, Bool.false_eq_true, if_false, heq]
  refine ⟨trivial,
    ⟨Event.log "pdf2odt" ("Iniciando conversión: " ++ inp.pdfBasename) ::
      Event.progress "pdf2odt" 10 1 (if inp.hintOpenOk then max 1 inp.pageCount else 1) :: pre,
      rfl⟩, ?_⟩
  intro e he hpe
  rcases List.mem_cons.mp he with rfl | h
  · simp [Event.percent?] at hpe
  · rcases List.mem_cons.mp h with rfl | h
    · simp [Event.percent?] at hpe
    · rcases List.mem_append.mp h with h' | h'
      · exact absurd (hP e h' 100 hpe) (by omega)
      · simp only [List.mem_cons, List.not_mem_nil, or_false] at h'
        rcases h' with rfl | rfl
        · simp [Event.percent?] at hpe
        · simp [Event.percent?] at hpe

/-- C2: for every task kind, if the cancellation flag is set before unit s
and s is strictly below the number of units, the run (with no library
failures) writes no output file, its trace is emission events followed by
the cancellation log and a terminal event, and no Progress event with
percent = 100 is ever emitted. -/
theorem c2_cancel_discards_everything :
    (∀ rf uniq inp s, s < inp.pageCount →
      (taskSearch rf uniq inp okSearchOracle (some s)).writes = [] ∧
      (∃ pre, (taskSearch rf uniq inp okSearchOracle (some s)).events =
        pre ++ [Event.log "search" stopMsg, Event.done]) ∧
      (∀ e ∈ (taskSearch rf uniq inp okSearchOracle (some s)).events,
        e.percent? ≠ some 100)) ∧
    (∀ rf uniq inp s, s < inp.pageCount →
      (taskAddPageNumbers rf uniq inp okNumberOracle (some s)).writes = [] ∧
      (∃ pre, (taskAddPageNumbers rf uniq inp okNumberOracle (some s)).events =
        pre ++ [Event.log "number" stopMsg, Event.done]) ∧
      (∀ e ∈ (taskAddPageNumbers rf uniq inp okNumberOracle (some s)).events,
        e.percent? ≠ some 100)) ∧
    (∀ uniq inp outputName s, s < inp.files.length →
      (taskMergePdfs uniq inp outputName okMergeOracle (some s)).writes = [] ∧
      (∃ pre, (taskMergePdfs uniq inp outputName okMergeOracle (some s)).events =
        pre ++ [Event.log "merge" stopMsg, Event.done]) ∧
      (∀ e ∈ (taskMergePdfs uniq inp outputName okMergeOracle (some s)).events,
        e.percent? ≠ some 100)) ∧
    (∀ rf uniq inp s, s < (pagesToExtract inp.rangesStr inp.pageCount).length →
      (taskExtractPages rf uniq inp okExtractOracle (some s)).writes = [] ∧
      (∃ pre, (taskExtractPages rf uniq inp okExtractOracle (some s)).events =
        pre ++ [Event.log "extract" stopMsg, Event.done]) ∧
      (∀ e ∈ (taskExtractPages rf uniq inp okExtractOracle (some s)).events,
        e.percent? ≠ some 100)) ∧
    (∀ rf uniq inp s, s < (pySplitlines inp.extractedText).length →
      (taskPdfToOdt rf uniq inp okConvertOracle (some s)).writes = [] ∧
      (∃ pre, (taskPdfToOdt rf uniq inp okConvertOracle (some s)).events =
        pre ++ [Event.log "pdf2odt" stopMsg, Event.done]) ∧
      (∀ e ∈ (taskPdfToOdt rf uniq inp okConvertOracle (some s)).events,
        e.percent? ≠ some 100)) :=
  ⟨taskSearch_cancel_spec, taskAddPageNumbers_cancel_spec, taskMergePdfs_cancel_spec,
   taskExtractPages_cancel_spec, taskPdfToOdt_cancel_spec⟩

/-- Witness for C2: a two-page search run cancelled before its first unit
writes nothing. -/
theorem c2_cancel_discards_everything_witness :
    (taskSearch "res" id ⟨"a.pdf", 2, fun _ => "", [], false, false⟩
      okSearchOracle (some 0)).writes = [] :=
  (c2_cancel_discards_everything.1 "res" id ⟨"a.pdf", 2, fun _ => "", [], false, false⟩ 0
    (by decide)).1

/-! ## Terminal tags of completed and cancelled runs (towards C10) -/

theorem eventsLast_pair (l : List Event) (a b : Event) :
    (l ++ [a, b]).getLast? = some b := by
  have h : l ++ [a, b] = (l ++ [a]) ++ [b] := by simp
  rw [h, List.getLast?_concat]

theorem eventsLast_triple (l : List Event) (a b c : Event) :
    (l ++ [a, b, c]).getLast? = some c := by
  have h : l ++ [a, b, c] = (l ++ [a, b]) ++ [c] := by simp
  rw [h, List.getLast?_concat]

theorem taskSearch_complete_done (rf : String) (uniq : String → String) (inp : SearchInput) :
    (taskSearch rf uniq inp okSearchOracle none).events.getLast? = some Event.done := by
  obtain ⟨pre, stc, heq⟩ := runUnits_completes (searchBody inp okSearchOracle)
    (fun i st => ⟨_, _, rfl⟩) inp.pageCount 0 0
  unfold taskSearch
  have ho : okSearchOracle.openFails = false := rfl
  have hsf : okSearchOracle.saveFails = false := rfl
  simp only [ho, Bool.false_eq_true, if_false, heq, hsf]
  by_cases hm : stc > 0
  · simp only [hm, if_true]
    exact eventsLast_pair _ _ _
  · simp only [hm, if_false]
    exact eventsLast_pair _ _ _

theorem taskAddPageNumbers_complete_done (rf : String) (uniq : String → String)
    (inp : NumberInput) :
    (taskAddPageNumbers rf uniq inp okNumberOracle none).events.getLast? = some Event.done := by
  obtain ⟨pre, stc, heq⟩ := runUnits_completes (numberBody inp okNumberOracle)
    (fun i st => ⟨_, _, rfl⟩) inp.pageCount 0 []
  unfold taskAddPageNumbers
  have ho : okNumberOracle.openFails = false := rfl
  have hsf : okNumberOracle.saveFails = false := rfl
  simp only [ho, Bool.false_eq_true, if_false, heq, hsf]
  exact eventsLast_pair _ _ _

theorem taskMergePdfs_complete_done (uniq : String → String) (inp : MergeInput)
    (outputName : String) :
    (taskMergePdfs uniq inp outputName okMergeOracle none).events.getLast? =
      some Event.done := by
  obtain ⟨pre, stc, heq⟩ := runUnits_completes (mergeBody inp okMergeOracle)
    (fun i st => ⟨_, _, rfl⟩) inp.files.length 0 []
  unfold taskMergePdfs
  have hsf : okMergeOracle.saveFails = false := rfl
  simp only [heq, hsf, Bool.false_eq_true, if_false]
  exact eventsLast_pair _ _ _

theorem taskExtractPages_complete_done (rf : String) (uniq : String → String)
    (inp : ExtractInput) :
    (taskExtractPages rf uniq inp okExtractOracle none).events.getLast? =
      some Event.done := by
  obtain ⟨pre, stc, heq⟩ := runUnits_completes
    (extractBody (pagesToExtract inp.rangesStr inp.pageCount) okExtractOracle)
    (fun i st => ⟨_, _, rfl⟩) (pagesToExtract inp.rangesStr inp.pageCount).length 0 []
  unfold taskExtractPages
  have ho : okExtractOracle.openFails = false := rfl
  have hsf : okExtractOracle.saveFails = false := rfl
  simp only [ho, Bool.false_eq_true, if_false, heq, hsf]
  by_cases hemp : (pagesToExtract inp.rangesStr inp.pageCount).isEmpty
  · simp only [hemp, if_true]
    rfl
  · simp only [hemp, Bool.false_eq_true, if_false]
    exact eventsLast_pair _ _ _

theorem taskPdfToOdt_complete_done (rf : String) (uniq : String → String)
    (inp : ConvertInput) :
    (taskPdfToOdt rf uniq inp okConvertOracle none).events.getLast? = some Event.done := by
  obtain ⟨pre, stc, heq⟩ := runUnits_completes
    (convertBody (max 1 (pySplitlines inp.extractedText).length))
    (fun i st => ⟨_, _, rfl⟩) (pySplitlines inp.extractedText).length 0 ()
  unfold taskPdfToOdt
  have ho : okConvertOracle.extractFails = false := rfl
  have hsf : okConvertOracle.saveFails = false := rfl
  simp only [ho, Bool.false_eq_true, if_false, heq, hsf]
  exact eventsLast_triple _ _ _ _

theorem taskSearch_cancel_done (rf : String) (uniq : String → String) (inp : SearchInput)
    (s : Nat) (hs : s < inp.pageCount) :
    (taskSearch rf uniq inp okSearchOracle (some s)).events.getLast? = some Event.done := by
  obtain ⟨-, ⟨pre, hpre⟩, -⟩ := taskSearch_cancel_spec rf uniq inp s hs
  rw [hpre]
  exact eventsLast_pair _ _ _

theorem taskAddPageNumbers_cancel_done (rf : String) (uniq : String → String)
    (inp : NumberInput) (s : Nat) (hs : s < inp.pageCount) :
    (taskAddPageNumbers rf uniq inp okNumberOracle (some s)).events.getLast? =
      some Event.done := by
  obtain ⟨-, ⟨pre, hpre⟩, -⟩ := taskAddPageNumbers_cancel_spec rf uniq inp s hs
  rw [hpre]
  exact eventsLast_pair _ _ _

theorem taskMergePdfs_cancel_done (uniq : String → String) (inp : MergeInput)
    (outputName : String) (s : Nat) (hs : s < inp.files.length) :
    (taskMergePdfs uniq inp outputName okMergeOracle (some s)).events.getLast? =
      some Event.done := by
  obtain ⟨-, ⟨pre, hpre⟩, -⟩ := taskMergePdfs_cancel_spec uniq inp outputName s hs
  rw [hpre]
  exact eventsLast_pair _ _ _

theorem taskExtractPages_cancel_done (rf : String) (uniq : String → String)
    (inp : ExtractInput) (s : Nat)
    (hs : s < (pagesToExtract inp.rangesStr inp.pageCount).length) :
    (taskExtractPages rf uniq inp okExtractOracle (some s)).events.getLast? =
      some Event.done := by
  obtain ⟨-, ⟨pre, hpre⟩, -⟩ := taskExtractPages_cancel_spec rf uniq inp s hs
  rw [hpre]
  exact eventsLast_pair _ _ _

theorem taskPdfToOdt_cancel_done (rf : String) (uniq : String → String)
    (inp : ConvertInput) (s : Nat) (hs : s < (pySplitlines inp.extractedText).length) :
    (taskPdfToOdt rf uniq inp okConvertOracle (some s)).events.getLast? =
      some Event.done := by
  obtain ⟨-, ⟨pre, hpre⟩, -⟩ := taskPdfToOdt_cancel_spec rf uniq inp s hs
  rw [hpre]
  exact eventsLast_pair _ _ _

/-- C10: for every task kind, the terminal event of a cooperatively
cancelled run is the same `Event.done` tag a successfully completed run
ends with — not a distinct Cancelled tag and not Error — so the terminal
event alone cannot distinguish cancellation from completion. -/
theorem c10_cancel_terminal_is_done :
    (∀ rf uniq inp s, s < inp.pageCount →
      (taskSearch rf uniq inp okSearchOracle (some s)).events.getLast? = some Event.done ∧
      (taskSearch rf uniq inp okSearchOracle none).events.getLast? = some Event.done) ∧
    (∀ rf uniq inp s, s < inp.pageCount →
      (taskAddPageNumbers rf uniq inp okNumberOracle (some s)).events.getLast? =
        some Event.done ∧
      (taskAddPageNumbers rf uniq inp okNumberOracle none).events.getLast? =
        some Event.done) ∧
    (∀ uniq inp outputName s, s < inp.files.length →
      (taskMergePdfs uniq inp outputName okMergeOracle (some s)).events.getLast? =
        some Event.done ∧
      (taskMergePdfs uniq inp outputName okMergeOracle none).events.getLast? =
        some Event.done) ∧
    (∀ rf uniq inp s, s < (pagesToExtract inp.rangesStr inp.pageCount).length →
      (taskExtractPages rf uniq inp okExtractOracle (some s)).events.getLast? =
        some Event.done ∧
      (taskExtractPages rf uniq inp okExtractOracle none).events.getLast? =
        some Event.done) ∧
    (∀ rf uniq inp s, s < (pySplitlines inp.extractedText).length →
      (taskPdfToOdt rf uniq inp okConvertOracle (some s)).events.getLast? =
        some Event.done ∧
      (taskPdfToOdt rf uniq inp okConvertOracle none).events.getLast? = some Event.done) :=
  ⟨fun rf uniq inp s hs =>
    ⟨taskSearch_cancel_done rf uniq inp s hs, taskSearch_complete_done rf uniq inp⟩,
   fun rf uniq inp s hs =>
    ⟨taskAddPageNumbers_cancel_done rf uniq inp s hs,
     taskAddPageNumbers_complete_done rf uniq inp⟩,
   fun uniq inp outputName s hs =>
    ⟨taskMergePdfs_cancel_done uniq inp outputName s hs,
     taskMergePdfs_complete_done uniq inp outputName⟩,
   fun rf uniq inp s hs =>
    ⟨taskExtractPages_cancel_done rf uniq inp s hs,
     taskExtractPages_complete_done rf uniq inp⟩,
   fun rf uniq inp s hs =>
    ⟨taskPdfToOdt_cancel_done rf uniq inp s hs, taskPdfToOdt_complete_done rf uniq inp⟩⟩

/-- Witness for C10: a two-page search task cancelled at its first check
ends with the Done tag. -/
theorem c10_cancel_terminal_is_done_witness :
    (taskSearch "res" id ⟨"a.pdf", 2, fun _ => "", [], false, false⟩
      okSearchOracle (some 0)).events.getLast? = some Event.done :=
  (c10_cancel_terminal_is_done.1 "res" id ⟨"a.pdf", 2, fun _ => "", [], false, false⟩ 0
    (by decide)).1

/-! ## Numbering-task stamping (towards C7) -/

theorem number_runUnits (inp : NumberInput) : ∀ r i st,
    runUnits none (numberBody inp okNumberOracle) i r st =
      ((List.range' i r).map (fun j => Event.progress "number" (pct (j + 1) inp.pageCount)
        (j + 1) inp.pageCount),
       .completed (st ++ (List.range' i r).filterMap
         (fun j => (numberLabel inp j).map (fun l => (j, l))))) := by
  intro r
  induction r with
  | zero => intro i st; simp [runUnits, List.range']
  | succ r ih =>
    intro i st
    rw [runUnits]
    have hb : numberBody inp okNumberOracle i st =
        .ok ([Event.progress "number" (pct (i + 1) inp.pageCount) (i + 1) inp.pageCount],
          match numberLabel inp i with
          | some l => st ++ [(i, l)]
          | none => st) := rfl
    simp only [isSet, hb, ih]
    rw [List.range'_succ]
    cases hl : numberLabel inp i with
    | some l => simp [List.filterMap_cons, hl]
    | none => simp [List.filterMap_cons, hl]

theorem taskAddPageNumbers_complete_spec (rf : String) (uniq : String → String)
    (inp : NumberInput) :
    (taskAddPageNumbers rf uniq inp okNumberOracle none).stamped =
      (List.range inp.pageCount).filterMap
        (fun i => (numberLabel inp i).map (fun l => (i, l))) ∧
    (taskAddPageNumbers rf uniq inp okNumberOracle none).writes =
      [uniq (joinPath rf ((splitext inp.pdfBasename).1 ++ "_numerado.pdf"))] := by
  unfold taskAddPageNumbers
  have ho : okNumberOracle.openFails = false := rfl
  have hsf : okNumberOracle.saveFails = false := rfl
  simp only [ho, Bool.false_eq_true, if_false, number_runUnits inp inp.pageCount 0 [], hsf]
  rw [List.range_eq_range']
  exact ⟨by simp, trivial⟩

/-- C7 counterexample: numbering a one-page document with start-number 1,
start-page 1 and use-initial set stamps label 1 on page index 0 — the code
computes start_num + (i - page_start + 1) — while the claim's formula
start-number + (index − start-page) gives 1 + (0 − 1) = 0. -/
theorem c7_counterexample :
    (taskAddPageNumbers "res" id ⟨"a.pdf", 1, 1, 1, true, "Página "⟩ okNumberOracle
      none).stamped = [(0, 1)] ∧ (1 : Int) ≠ 1 + ((0 : Int) - 1) :=
  ⟨by decide, by decide⟩

/-- C7 amended: with use-initial set, every page whose 1-based position
index+1 is at least start-page is stamped with label
start-number + ((index+1) − start-page) (one more than the claim's
formula); with use-initial unset the label is index+1; pages before
start-page are never stamped; and the completed run always writes exactly
one output file, even when zero pages were stamped. -/
theorem c7_number_labels :
    (∀ inp : NumberInput, ∀ i : Nat, inp.pageStart ≤ (i : Int) + 1 →
      inp.useNumberInitial = true →
      numberLabel inp i = some (inp.startNum + ((i : Int) + 1 - inp.pageStart))) ∧
    (∀ inp : NumberInput, ∀ i : Nat, inp.pageStart ≤ (i : Int) + 1 →
      inp.useNumberInitial = false → numberLabel inp i = some ((i : Int) + 1)) ∧
    (∀ inp : NumberInput, ∀ i : Nat, (i : Int) + 1 < inp.pageStart →
      numberLabel inp i = none) ∧
    (∀ rf uniq inp,
      (taskAddPageNumbers rf uniq inp okNumberOracle none).stamped =
        (List.range inp.pageCount).filterMap
          (fun i => (numberLabel inp i).map (fun l => (i, l))) ∧
      (taskAddPageNumbers rf uniq inp okNumberOracle none).writes =
        [uniq (joinPath rf ((splitext inp.pdfBasename).1 ++ "_numerado.pdf"))]) := by
  refine ⟨?_, ?_, ?_, taskAddPageNumbers_complete_spec⟩
  · intro inp i h1 h2
    simp only [numberLabel, h1, if_true, h2, Option.some.injEq]
    omega
  · intro inp i h1 h2
    simp only [numberLabel, h1, if_true, h2, Bool.false_eq_true, if_false]
  · intro inp i h1
    have : ¬ inp.pageStart ≤ (i : Int) + 1 := by omega
    simp [numberLabel, this]

/-- Witness for C7 (amended): the first stamped page of the counterexample
document carries label start-number itself. -/
theorem c7_number_labels_witness :
    numberLabel ⟨"a.pdf", 1, 1, 1, true, "Página "⟩ 0 = some (1 + ((0 : Int) + 1 - 1)) :=
  c7_number_labels.1 ⟨"a.pdf", 1, 1, 1, true, "Página "⟩ 0 (by decide) rfl

/-! ## Merge-task per-file recovery (towards C9) -/

theorem merge_runUnits (inp : MergeInput) (ff : Nat → Bool) (sf : Bool) : ∀ r i st,
    runUnits none (mergeBody inp ⟨ff, sf⟩) i r st =
      ((List.range' i r).flatMap (fun j => mergeUnitEvents inp ff j),
       .completed (st ++ ((List.range' i r).filter (fun j => !(ff j))).flatMap
         (fun j => (List.range (inp.pageCount j)).map (fun p => (j, p))))) := by
  intro r
  induction r with
  | zero => intro i st; simp [runUnits, List.range']
  | succ r ih =>
    intro i st
    rw [runUnits, List.range'_succ]
    cases hf : ff i with
    | false =>
      have hb : mergeBody inp ⟨ff, sf⟩ i st = .ok (mergeUnitEvents inp ff i,
          st ++ (List.range (inp.pageCount i)).map (fun p => (i, p))) := by
        simp [mergeBody, mergeUnitEvents, hf]
      simp only [isSet, hb, ih]
      simp [hf]
    | true =>
      have hb : mergeBody inp ⟨ff, sf⟩ i st = .ok (mergeUnitEvents inp ff i, st) := by
        simp [mergeBody, mergeUnitEvents, hf]
      simp only [isSet, hb, ih]
      simp [hf]

theorem taskMergePdfs_complete_spec (uniq : String → String) (inp : MergeInput)
    (outputName : String) (ff : Nat → Bool) :
    (taskMergePdfs uniq inp outputName ⟨ff, false⟩ none).events =
      Event.log "merge"
        ("Unión de " ++ toString inp.files.length ++ " archivos en: " ++ outputName)
        :: (List.range inp.files.length).flatMap (fun j => mergeUnitEvents inp ff j)
        ++ [Event.log "merge" ("✅ Archivo generado: " ++ uniq (mergeForcedName outputName)),
            Event.done] ∧
    (taskMergePdfs uniq inp outputName ⟨ff, false⟩ none).mergedPages =
      ((List.range inp.files.length).filter (fun j => !(ff j))).flatMap
        (fun j => (List.range (inp.pageCount j)).map (fun p => (j, p))) ∧
    (taskMergePdfs uniq inp outputName ⟨ff, false⟩ none).writes =
      [uniq (mergeForcedName outputName)] := by
  unfold taskMergePdfs
  simp only [merge_runUnits inp ff false inp.files.length 0 []]
  rw [List.range_eq_range']
  exact ⟨by simp, by simp, rfl⟩

/-- C9: when opening/appending one merge input fails, the failure is logged
and the file skipped while the loop continues: for any set of failing
inputs the run still ends in Done (not Error), writes the merged output,
and the output contains exactly the pages of the inputs that succeeded, in
order; in particular, with the middle one of three inputs unreadable, the
output holds the pages of the other two and exactly one log entry reports
the skipped file. -/
theorem c9_merge_skips_failed_inputs :
    (∀ uniq inp outputName ff,
      (taskMergePdfs uniq inp outputName ⟨ff, false⟩ none).events.getLast? =
        some Event.done ∧
      (taskMergePdfs uniq inp outputName ⟨ff, false⟩ none).mergedPages =
        ((List.range inp.files.length).filter (fun j => !(ff j))).flatMap
          (fun j => (List.range (inp.pageCount j)).map (fun p => (j, p))) ∧
      (taskMergePdfs uniq inp outputName ⟨ff, false⟩ none).writes =
        [uniq (mergeForcedName outputName)] ∧
      (∀ j, j < inp.files.length → ff j = true →
        Event.log "merge"
          ("⚠️ Error añadiendo " ++ basename (inp.files.getD j "") ++ ": fallo al abrir")
          ∈ (taskMergePdfs uniq inp outputName ⟨ff, false⟩ none).events)) ∧
    ((taskMergePdfs id ⟨["a.pdf", "b.pdf", "c.pdf"], fun j => [1, 2, 3].getD j 0⟩
        "out.pdf" ⟨fun j => j == 1, false⟩ none).mergedPages =
        [(0, 0), (2, 0), (2, 1), (2, 2)] ∧
      (taskMergePdfs id ⟨["a.pdf", "b.pdf", "c.pdf"], fun j => [1, 2, 3].getD j 0⟩
        "out.pdf" ⟨fun j => j == 1, false⟩ none).events.countP isMergeErrorLog = 1 ∧
      (taskMergePdfs id ⟨["a.pdf", "b.pdf", "c.pdf"], fun j => [1, 2, 3].getD j 0⟩
        "out.pdf" ⟨fun j => j == 1, false⟩ none).events.getLast? = some Event.done) := by
  constructor
  · intro uniq inp outputName ff
    obtain ⟨hev, hpg, hwr⟩ := taskMergePdfs_complete_spec uniq inp outputName ff
    refine ⟨?_, hpg, hwr, ?_⟩
    · rw [hev]
      exact eventsLast_pair _ _ _
    · intro j hj hfj
      rw [hev]
      apply List.mem_cons_of_mem
      apply List.mem_append_left
      apply List.mem_flatMap.mpr
      refine ⟨j, List.mem_range.mpr hj, ?_⟩
      simp [mergeUnitEvents, hfj]
  · exact ⟨by decide, by decide, by decide⟩

/-- Witness for C9: the skip warning for the unreadable second input is in
the trace of the three-file merge run. -/
theorem c9_merge_skips_failed_inputs_witness :
    Event.log "merge"
      ("⚠️ Error añadiendo " ++
        basename ((MergeInput.mk ["a.pdf", "b.pdf", "c.pdf"]
          (fun j => [1, 2, 3].getD j 0)).files.getD 1 "") ++ ": fallo al abrir")
      ∈ (taskMergePdfs id ⟨["a.pdf", "b.pdf", "c.pdf"], fun j => [1, 2, 3].getD j 0⟩
          "out.pdf" ⟨fun j => j == 1, false⟩ none).events :=
  (c9_merge_skips_failed_inputs.1 id
    ⟨["a.pdf", "b.pdf", "c.pdf"], fun j => [1, 2, 3].getD j 0⟩ "out.pdf"
    (fun j => j == 1)).2.2.2 1 (by decide) (by decide)

/-! ## Merge output-name rule (towards C8) -/

theorem chPrefix_append_self (l z : List Char) : chPrefix l (l ++ z) = true := by
  induction l with
  | nil => rfl
  | cons a as ih => simp [chPrefix, ih]

theorem strEndsWith_append (a b : String) : strEndsWith (a ++ b) b = true := by
  unfold strEndsWith
  rw [String.data_append, List.reverse_append]
  exact chPrefix_append_self _ _

/-- C8 counterexample: for the user-entered name "out.txt" the source keeps
the foreign extension — `output_name.lower().endswith(".pdf")` is false, so
it appends "_unido.pdf" to the whole name — while the claim's
strip-any-existing-extension rule would give "out_unido.pdf"; a merge run
with that output name writes "out.txt_unido.pdf". -/
theorem c8_counterexample :
    mergeForcedName "out.txt" = "out.txt_unido.pdf" ∧
    mergeForcedNameSpec "out.txt" = "out_unido.pdf" ∧
    mergeForcedName "out.txt" ≠ mergeForcedNameSpec "out.txt" ∧
    (taskMergePdfs id ⟨[], fun _ => 0⟩ "out.txt" ⟨fun _ => false, false⟩ none).writes =
      ["out.txt_unido.pdf"] :=
  ⟨by decide, by decide, by decide, by decide⟩

/-- C8 amended: the written merge output name is the user-entered name with
the `_unido` suffix forced before the final collision resolution; the
existing extension is stripped only when the name already ends in ".pdf"
case-insensitively — any other extension is kept and "_unido.pdf" is
appended after it — and the result always ends in "_unido.pdf". -/
theorem c8_merge_output_name :
    (∀ name, strEndsWith (pyLower name) ".pdf" = true →
      mergeForcedName name = (splitext name).1 ++ "_unido.pdf") ∧
    (∀ name, strEndsWith (pyLower name) ".pdf" = false →
      mergeForcedName name = name ++ "_unido.pdf") ∧
    (∀ name, strEndsWith (mergeForcedName name) "_unido.pdf" = true) ∧
    (∀ uniq inp outputName ff,
      (taskMergePdfs uniq inp outputName ⟨ff, false⟩ none).writes =
        [uniq (mergeForcedName outputName)]) := by
  refine ⟨?_, ?_, ?_, ?_⟩
  · intro name h
    simp [mergeForcedName, h]
  · intro name h
    simp [mergeForcedName, h]
  · intro name
    unfold mergeForcedName
    by_cases h : strEndsWith (pyLower name) ".pdf"
    · simp only [h, if_true]
      exact strEndsWith_append _ _
    · simp only [h, Bool.false_eq_true, if_false]
      exact strEndsWith_append _ _
  · intro uniq inp outputName ff
    exact (taskMergePdfs_complete_spec uniq inp outputName ff).2.2

/-- Witness for C8 (amended): a name already ending in ".PDF" has that
extension stripped before the suffix is forced. -/
theorem c8_merge_output_name_witness :
    mergeForcedName "a.PDF" = (splitext "a.PDF").1 ++ "_unido.pdf" :=
  c8_merge_output_name.1 "a.PDF" (by decide)

/-! ## unique_filename correctness (towards C5) -/

theorem uniqueFrom_free {fs : String → Bool} (base ext : String) {cur : String}
    (h : fs cur = false) :
    ∀ fuel counter, uniqueFrom fs base ext fuel counter cur = some cur := by
  intro fuel counter
  cases fuel <;> simp [uniqueFrom, h]

theorem uniqueFrom_not_exists (fs : String → Bool) (base ext : String) :
    ∀ fuel counter cur r, uniqueFrom fs base ext fuel counter cur = some r →
      fs r = false := by
  intro fuel
  induction fuel with
  | zero =>
    intro counter cur r h
    by_cases hc : fs cur
    · simp [uniqueFrom, hc] at h
    · rw [Bool.not_eq_true] at hc
      simp [uniqueFrom, hc] at h
      subst h
      exact hc
  | succ fuel ih =>
    intro counter cur r h
    by_cases hc : fs cur
    · simp only [uniqueFrom, hc, if_true] at h
      exact ih _ _ _ h
    · rw [Bool.not_eq_true] at hc
      simp [uniqueFrom, hc] at h
      subst h
      exact hc

theorem uniqueFrom_least (fs : String → Bool) (base ext : String) (N : Nat)
    (hN : fs (base ++ "_" ++ toString N ++ ext) = false) :
    ∀ fuel counter cur, fs cur = true → counter ≤ N →
      (∀ k, counter ≤ k → k < N → fs (base ++ "_" ++ toString k ++ ext) = true) →
      N + 1 - counter ≤ fuel →
      uniqueFrom fs base ext fuel counter cur =
        some (base ++ "_" ++ toString N ++ ext) := by
  intro fuel
  induction fuel with
  | zero => intro counter cur hcur hle hall hf; omega
  | succ fuel ih =>
    intro counter cur hcur hle hall hf
    simp only [uniqueFrom, hcur, if_true]
    by_cases hcN : counter = N
    · subst hcN
      exact uniqueFrom_free base ext hN fuel (counter + 1)
    · have hlt : counter < N := by omega
      exact ih (counter + 1) (base ++ "_" ++ toString counter ++ ext)
        (hall counter le_rfl hlt) (by omega)
        (fun k hk1 hk2 => hall k (by omega) hk2) (by omega)

/-- C5: the output namer returns the path unchanged when it is free,
otherwise the first base_N.ext (N = 1, 2, ...) that does not exist; it never
returns an existing path; and on the filesystem holding a.pdf and a_1.pdf,
unique("a.pdf") = "a_2.pdf" while unique("b.pdf") = "b.pdf".  (`fuel` bounds
the source's unbounded while loop; enough fuel is part of the hypotheses.) -/
theorem c5_unique_filename :
    (∀ fs fuel path, fs path = false → uniqueFilename fs fuel path = some path) ∧
    (∀ fs fuel path r, uniqueFilename fs fuel path = some r → fs r = false) ∧
    (∀ fs fuel path N, fs path = true → 1 ≤ N →
      fs (uniqueCandidate path N) = false →
      (∀ k, 1 ≤ k → k < N → fs (uniqueCandidate path k) = true) → N ≤ fuel →
      uniqueFilename fs fuel path = some (uniqueCandidate path N)) ∧
    (uniqueFilename (fun s => s == "a.pdf" || s == "a_1.pdf") 3 "a.pdf" =
      some "a_2.pdf" ∧
     uniqueFilename (fun s => s == "a.pdf" || s == "a_1.pdf") 3 "b.pdf" =
      some "b.pdf") := by
  refine ⟨?_, ?_, ?_, by decide, by decide⟩
  · intro fs fuel path h
    cases fuel <;> simp [uniqueFilename, uniqueFrom, h]
  · intro fs fuel path r h
    exact uniqueFrom_not_exists fs _ _ fuel 1 path r h
  · intro fs fuel path N hpath hN1 hNfree hall hfuel
    exact uniqueFrom_least fs (splitext path).1 (splitext path).2 N hNfree fuel 1 path
      hpath hN1 (fun k hk1 hk2 => hall k hk1 hk2) (by omega)

/-- Witness for C5: with a.pdf and a_1.pdf present and fuel 3, the namer
returns the candidate a_2.pdf. -/
theorem c5_unique_filename_witness :
    uniqueFilename (fun s => s == "a.pdf" || s == "a_1.pdf") 3 "a.pdf" =
      some (uniqueCandidate "a.pdf" 2) :=
  c5_unique_filename.2.2.1 (fun s => s == "a.pdf" || s == "a_1.pdf") 3 "a.pdf" 2
    (by decide) (by decide) (by decide)
    (fun k h1 h2 => by
      have hk : k = 1 := by omega
      subst hk
      decide)
    (by decide)

/-! ## Range parser correctness (towards C4)

`pagesToExtract` is a total function: malformed tokens contribute nothing
instead of raising, mirroring the source's per-token try/except. -/

/-- C4: the range parser's result is strictly ascending (hence sorted and
duplicate-free) with every index inside [0, totalPages), for every
expression; and on the claim's concrete examples it returns {0,1,2,5,6},
{}, {1} and {} (the last for every page count). -/
theorem insertAsc_mem (x a : Nat) : ∀ l : List Nat, a ∈ insertAsc x l ↔ a = x ∨ a ∈ l := by
  intro l
  induction l with
  | nil => simp [insertAsc]
  | cons y ys ih =>
    unfold insertAsc
    by_cases h1 : x < y
    · rw [if_pos h1]
      simp
    · rw [if_neg h1]
      by_cases h2 : x = y
      · rw [if_pos h2]
        subst h2
        simp only [List.mem_cons]
        tauto
      · rw [if_neg h2]
        simp only [List.mem_cons, ih]
        tauto

theorem insertAsc_sorted (x : Nat) :
    ∀ l : List Nat, List.Sorted (· < ·) l → List.Sorted (· < ·) (insertAsc x l) := by
  intro l
  induction l with
  | nil => intro h; simp [insertAsc]
  | cons y ys ih =>
    intro h
    rw [List.sorted_cons] at h
    unfold insertAsc
    by_cases h1 : x < y
    · rw [if_pos h1, List.sorted_cons]
      refine ⟨?_, List.sorted_cons.mpr h⟩
      intro b hb
      rcases List.mem_cons.mp hb with rfl | hb
      · exact h1
      · exact lt_trans h1 (h.1 b hb)
    · rw [if_neg h1]
      by_cases h2 : x = y
      · rw [if_pos h2, List.sorted_cons]
        exact h
      · rw [if_neg h2, List.sorted_cons]
        refine ⟨?_, ih h.2⟩
        intro b hb
        rcases (insertAsc_mem x b ys).mp hb with rfl | hb
        · omega
        · exact h.1 b hb

theorem sortedDedup_sorted (l : List Nat) : List.Sorted (· < ·) (sortedDedup l) := by
  induction l with
  | nil => simp [sortedDedup]
  | cons a l ih => exact insertAsc_sorted a _ ih

theorem sortedDedup_mem (a : Nat) : ∀ l : List Nat, a ∈ sortedDedup l ↔ a ∈ l := by
  intro l
  induction l with
  | nil => simp [sortedDedup]
  | cons b l ih =>
    show a ∈ insertAsc b (sortedDedup l) ↔ _
    rw [insertAsc_mem, ih]
    simp

theorem c4_range_rules :
    (∀ s n, List.Sorted (· < ·) (pagesToExtract s n)) ∧
    (∀ s n, (pagesToExtract s n).Nodup) ∧
    (∀ s n p, p ∈ pagesToExtract s n → p < n) ∧
    pagesToExtract "1-3,6-7" 10 = [0, 1, 2, 5, 6] ∧
    pagesToExtract "5-2" 10 = [] ∧
    pagesToExtract "abc,2" 5 = [1] ∧
    (∀ n, pagesToExtract "" n = []) := by
  refine ⟨?_, ?_, ?_, by decide, by decide, by decide, ?_⟩
  · intro s n
    exact sortedDedup_sorted _
  · intro s n
    exact (sortedDedup_sorted _).nodup
  · intro s n p hp
    unfold pagesToExtract at hp
    rw [sortedDedup_mem] at hp
    simp only [List.mem_map, List.mem_filter, decide_eq_true_eq] at hp
    obtain ⟨q, ⟨-, hq⟩, rfl⟩ := hp
    omega
  · intro n
    rfl

/-! ## Runner mutual exclusion (towards C3) -/

/-- C3 counterexample: invoking a launcher directly while a worker is alive
(the state `_set_buttons_state(True)` leaves behind: start disabled, stop
enabled) spawns a second worker and fails with nothing — the launchers never
inspect `active_worker` and no AlreadyRunning failure exists in the code. -/
theorem c3_counterexample :
    launcherInvoke ⟨1, false, true⟩ true = ⟨2, false, true⟩ := by decide

/-- C3 amended: mutual exclusion is enforced by the button layer, not by a
guard in the launchers: in every state the UI can reach (clicks fire only
while the start buttons are enabled, terminal events re-enable them), at
most one worker is alive, and whenever the start buttons are enabled no
worker is alive; a launcher invoked directly in a running state would
instead spawn a second worker without failing. -/
theorem c3_button_mutual_exclusion :
    (∀ s : UIState, UIReachable s →
      s.aliveWorkers ≤ 1 ∧ (s.startEnabled = true → s.aliveWorkers = 0)) ∧
    (∀ s : UIState, s.aliveWorkers = 1 →
      (launcherInvoke s true).aliveWorkers = 2) := by
  constructor
  · intro s h
    induction h with
    | refl => exact ⟨by decide, fun _ => rfl⟩
    | tail hr step ih =>
      cases step with
      | click valid hv =>
        cases valid with
        | false => simpa [launcherInvoke] using ih
        | true =>
          have h0 := ih.2 hv
          simp [launcherInvoke, setButtonsState, h0]
      | finish hw =>
        have h1 := ih.1
        constructor
        · simp only [consumeTerminal, setButtonsState]
          omega
        · intro _
          simp only [consumeTerminal, setButtonsState]
          omega
  · intro s h1
    simp [launcherInvoke, setButtonsState, h1]

/-- Witness for C3 (amended): the idle initial state is reachable and
satisfies the invariant. -/
theorem c3_button_mutual_exclusion_witness :
    initialUI.aliveWorkers ≤ 1 ∧ (initialUI.startEnabled = true →
      initialUI.aliveWorkers = 0) :=
  c3_button_mutual_exclusion.1 initialUI Relation.ReflTransGen.refl

/-- Witness for C4: index 0 returned for "1-3,6-7" over ten pages is within
bounds. -/
theorem c4_range_rules_witness : (0 : Nat) < 10 :=
  c4_range_rules.2.2.1 "1-3,6-7" 10 0 (by decide)
